import Mathlib

/-!
Verification development for the TFITPICAN CAN dashboard core.

This file gives a shallow embedding, in Lean 4, of the two subsystems of the
repository that its specification singles out:

* the signal codec of `src/can/dbc-parser.py` (custom decode path:
  `_decode_message_custom`, `_extract_bits`, `decode_message`), and
* the scenario engine of `src/core/scenario_manager.py`
  (`run_scenario`, `_run_scenario_thread`, `stop_scenario`, state helpers)
  together with the store of `src/core/scenario_loader.py`
  (`validate_scenario`, `_validate_step`, `save_scenario`).

Modelling conventions:

* Python integers are `Nat`/`Int`; DBC factors and offsets (Python floats)
  are modelled as exact rationals `ℚ`, so "within floating-point tolerance"
  statements become exact equalities.
* Python dicts are association lists with first-occurrence lookup; insertion
  replaces the first matching key, as dict assignment does.
* Fallible code returns `Option`: `none` models either Python `None` or an
  exception escaping the modelled function, as noted at each definition.
* Wall-clock timestamps (`datetime.now()`) are modelled by a monotone tick
  counter threaded through the scenario-manager state.
-/

/-! ## Python data model and dict helpers -/

/-- A Python/JSON value as stored in scenario documents and step dicts. -/

inductive PyVal where
  | pynone
  | pybool (b : Bool)
  | pyint (n : Int)
  | pyfloat (q : ℚ)
  | pystr (s : String)
  | pylist (items : List PyVal)
  | pydict (entries : List (String × PyVal))

mutual

/-- Python value equality (`==`) on the modelled values. -/
def pyval_eq : PyVal → PyVal → Bool
  | PyVal.pynone, PyVal.pynone => true
  | PyVal.pybool a, PyVal.pybool b => a == b
  | PyVal.pyint a, PyVal.pyint b => a == b
  | PyVal.pyfloat a, PyVal.pyfloat b => a == b
  | PyVal.pystr a, PyVal.pystr b => a == b
  | PyVal.pylist a, PyVal.pylist b => pyval_list_eq a b
  | PyVal.pydict a, PyVal.pydict b => pyval_entries_eq a b
  | _, _ => false

/-- Elementwise equality of Python lists. -/
def pyval_list_eq : List PyVal → List PyVal → Bool
  | [], [] => true
  | x :: xs, y :: ys => pyval_eq x y && pyval_list_eq xs ys
  | _, _ => false

/-- Entrywise equality of Python dict item lists. -/
def pyval_entries_eq : List (String × PyVal) → List (String × PyVal) → Bool
  | [], [] => true
  | (k1, v1) :: xs, (k2, v2) :: ys => k1 == k2 && pyval_eq v1 v2 && pyval_entries_eq xs ys
  | _, _ => false

end

/-- First-occurrence lookup in an association list (Python dict access). -/

def dict_lookup {α β : Type} [DecidableEq α] (k : α) : List (α × β) → Option β
  | [] => none
  | (k1, v) :: rest => if k1 = k then some v else dict_lookup k rest

/-- Key-membership test (Python `k in d` for a dict). -/

def key_in {α β : Type} [DecidableEq α] (k : α) (l : List (α × β)) : Bool :=
  (dict_lookup k l).isSome

/-- Dict assignment `d[k] = v`: replaces the first binding of `k`, or appends. -/

def dict_set {α β : Type} [DecidableEq α] (k : α) (v : β) : List (α × β) → List (α × β)
  | [] => [(k, v)]
  | (k1, v1) :: rest => if k1 = k then (k, v) :: rest else (k1, v1) :: dict_set k v rest

/-- Lookup in a Python-keyed dict (keys compared with Python `==`). -/

def dict_lookup_py (k : PyVal) : List (PyVal × PyVal) → Option PyVal
  | [] => none
  | (k1, v) :: rest => if pyval_eq k1 k then some v else dict_lookup_py k rest

/-- Assignment in a Python-keyed dict. -/

def dict_set_py (k v : PyVal) : List (PyVal × PyVal) → List (PyVal × PyVal)
  | [] => [(k, v)]
  | (k1, v1) :: rest =>
      if pyval_eq k1 k then (k, v) :: rest else (k1, v1) :: dict_set_py k v rest

/-- Whether `needle` is a prefix of `hay` (over character lists). -/

def char_list_starts : List Char → List Char → Bool
  | [], _ => true
  | _ :: _, [] => false
  | c :: cs, h :: hs => c == h && char_list_starts cs hs

/-- Whether `needle` occurs contiguously in `hay` (over character lists). -/

def char_list_infix (needle : List Char) : List Char → Bool
  | [] => char_list_starts needle []
  | h :: hs => char_list_starts needle (h :: hs) || char_list_infix needle hs

/-- Python `needle in hay` for strings: substring containment. -/

def str_contains_sub (hay needle : String) : Bool :=
  char_list_infix needle.toList hay.toList

/-! ## Signal codec (`src/can/dbc-parser.py`, custom implementation) -/

/-- Byte order of a DBC signal (`"little_endian"` / `"big_endian"` strings
in the source dictionaries). -/

inductive ByteOrder where
  | little_endian
  | big_endian
deriving DecidableEq, Repr

/-- A well-formed signal definition, as produced by `_load_dbc_custom` for a
`SG_` record (the `receivers` field is irrelevant to the codec and omitted
from the claims). -/

structure SignalDef where
  name : String
  start_bit : Nat
  length : Nat
  byte_order : ByteOrder
  is_signed : Bool
  factor : ℚ
  offset : ℚ
  minimum : Option ℚ := none
  maximum : Option ℚ := none
  unit : String := ""
deriving DecidableEq, Repr

/-- `int.from_bytes(data, byteorder='little')`. -/

def from_bytes_le : List Nat → Nat
  | [] => 0
  | b :: rest => b + 256 * from_bytes_le rest

/-- `x.to_bytes(n, 'little')`: the `n` little-endian bytes of `x` (used by the
spec-modelled encoder below; the custom decoder only consumes byte lists). -/

def to_bytes_le : Nat → Nat → List Nat
  | 0, _ => []
  | n + 1, x => (x % 256) :: to_bytes_le n (x / 256)

/-- `DBCParser._extract_bits` (dbc-parser.py lines 336-367): convert the
payload to one little-endian integer; for little-endian signals shift right by
`start_bit` and mask `length` bits; for big-endian (Motorola) signals remap the
bit index first (`adjusted_bit = (7 - bit_index) + byte_index * 8`, the
simplified formula the source itself documents as approximate). -/

def extract_bits (data : List Nat) (start_bit length : Nat) (byte_order : ByteOrder) : Nat :=
  let data_int := from_bytes_le data
  match byte_order with
  | ByteOrder.little_endian =>
      (data_int >>> start_bit) &&& (1 <<< length - 1)
  | ByteOrder.big_endian =>
      let byte_index := start_bit / 8
      let bit_index := start_bit % 8
      let adjusted_bit := (7 - bit_index) + byte_index * 8
      (data_int >>> adjusted_bit) &&& (1 <<< length - 1)

/-- Two's-complement handling in `_decode_message_custom` (lines 319-323):
if the signal is signed and the sign bit (`1 << (length - 1)`) of the raw
value is set, subtract `1 << length`. -/

def sign_extend_core (is_signed : Bool) (length raw : Nat) : Int :=
  if is_signed && (raw &&& (1 <<< (length - 1)) != 0) then
    (raw : Int) - (1 <<< length : Nat)
  else
    (raw : Int)

/-- Per-signal decode body of `_decode_message_custom` (lines 305-329),
factored over the six dictionary fields it reads: extract the raw value,
sign-extend, then apply `value = raw * factor + offset`. -/

def decode_core (data : List Nat) (start_bit length : Nat) (byte_order : ByteOrder)
    (is_signed : Bool) (factor offset : ℚ) : ℚ :=
  let raw := extract_bits data start_bit length byte_order
  (sign_extend_core is_signed length raw : ℚ) * factor + offset

/-- Decode one well-formed signal of a frame payload. -/

def decode_signal (s : SignalDef) (data : List Nat) : ℚ :=
  decode_core data s.start_bit s.length s.byte_order s.is_signed s.factor s.offset

/-- A signal dictionary as `_decode_message_custom` sees it: each field access
`signal["…"]` can raise `KeyError`, so every field is optional here. -/

structure SignalEntry where
  start_bit : Option Nat
  length : Option Nat
  byte_order : Option ByteOrder
  is_signed : Option Bool
  factor : Option ℚ
  offset : Option ℚ
deriving DecidableEq, Repr

/-- The per-signal `try` body of `_decode_message_custom`: `some value` when
every field access succeeds, `none` when a `KeyError` is caught by the
per-signal handler (the only exception this loop body can raise). -/

def decode_signal_entry (e : SignalEntry) (data : List Nat) : Option ℚ :=
  match e.start_bit, e.length, e.byte_order, e.is_signed, e.factor, e.offset with
  | some sb, some len, some bo, some sg, some f, some off =>
      some (decode_core data sb len bo sg f off)
  | _, _, _, _, _, _ => none

/-- A message definition of the custom database shape (`BO_` record). -/

structure MessageDef where
  name : String
  dlc : Nat
  signals : List (String × SignalEntry)
deriving DecidableEq, Repr

/-- A custom-parsed DBC database (`_load_dbc_custom` result shape; the
`value_tables` component is untouched by decoding). -/

structure DbcDb where
  messages : List (Nat × MessageDef)
  value_tables : List (String × List (Nat × String)) := []
deriving DecidableEq, Repr

/-- `DBCParser._decode_message_custom` (lines 287-334): `none` when the
frame id is unknown to this database; otherwise the mapping of all signals
whose per-signal decode succeeded, failing signals logged and skipped. -/

def decode_message_custom (db : DbcDb) (can_id : Nat) (data : List Nat) :
    Option (List (String × ℚ)) :=
  match dict_lookup can_id db.messages with
  | none => none
  | some msg =>
      some (msg.signals.filterMap fun p =>
        (decode_signal_entry p.2 data).map fun v => (p.1, v))

/-- `DBCParser.decode_message` (lines 214-285), custom path, `db_name=None`:
try each loaded database in registration order; the guard `if decoded:` treats
both `None` and an empty dict as failure, so only a non-empty signal mapping
is returned; `none` when no database produces one (including when no database
is loaded at all). -/

def decode_message (dbs : List DbcDb) (can_id : Nat) (data : List Nat) :
    Option (List (String × ℚ)) :=
  match dbs with
  | [] => none
  | db :: rest =>
      match decode_message_custom db can_id data with
      | some l => if l.isEmpty then decode_message rest can_id data else some l
      | none => decode_message rest can_id data

/-- The bit position at which `extract_bits` reads a signal: `start_bit`
itself for little-endian, the remapped index for big-endian. -/

def bit_pos (s : SignalDef) : Nat :=
  match s.byte_order with
  | ByteOrder.little_endian => s.start_bit
  | ByteOrder.big_endian => (7 - s.start_bit % 8) + (s.start_bit / 8) * 8

/-- A signal definition the codec can faithfully round-trip: non-degenerate
width, bits inside the 8-byte payload window, and a non-zero scale factor. -/

def ValidSignal (s : SignalDef) : Prop :=
  1 ≤ s.length ∧ bit_pos s + s.length ≤ 64 ∧ s.factor ≠ 0

instance (s : SignalDef) : Decidable (ValidSignal s) := by
  unfold ValidSignal; infer_instance

/-- The physical value a raw bit pattern stands for under a signal definition
(sign extension, then scale and offset) — the value `decode` reports. -/

def physical_of_raw (s : SignalDef) (raw : Nat) : ℚ :=
  (sign_extend_core s.is_signed s.length raw : ℚ) * s.factor + s.offset

/-- Modelled from the spec: the signal encoder. The repository delegates
`encode_message` to the external `cantools` library and its own custom path is
unimplemented (`"Custom encoding not implemented"`, dbc-parser.py line 418),
so the algorithm is modelled from the spec sentence "`encode(...)`: inverse
transform": map the physical value back to a raw integer via the inverse
affine map `(value - offset) / factor`, reduce it to a `length`-bit two's
complement pattern, and place the pattern at the signal's bit position in an
8-byte little-endian payload. Non-integer raw values are rejected. -/

def encode_signal (s : SignalDef) (v : ℚ) : Option (List Nat) :=
  let r := (v - s.offset) / s.factor
  if r.den = 1 then
    let pattern := (r.num % ((2 : Int) ^ s.length)).toNat
    some (to_bytes_le 8 (pattern <<< bit_pos s))
  else none

/-- A database whose only message (id 16) declares no signals: its decode
result is the empty mapping, which `decode_message` treats as a failure. -/

def db_ex1 : DbcDb := ⟨[(16, ⟨"M1", 1, []⟩)], []⟩

/-- A second database for the same id 16, with one decodable 8-bit signal. -/

def db_ex2 : DbcDb :=
  ⟨[(16, ⟨"M2", 1,
    [("sig", ⟨some 0, some 8, some ByteOrder.little_endian, some false, some 1, some 0⟩)]⟩)], []⟩

/-- A message with one decodable signal and one malformed signal dictionary
(missing `factor`, so its per-signal decode raises `KeyError`). -/

def msg_ex : MessageDef :=
  ⟨"M3", 2,
    [("good", ⟨some 0, some 8, some ByteOrder.little_endian, some false, some 1, some 0⟩),
     ("bad", ⟨some 8, some 8, some ByteOrder.little_endian, some false, none, some 0⟩)]⟩

/-- A database carrying `msg_ex` under frame id 32. -/

def db_ex3 : DbcDb := ⟨[(32, msg_ex)], []⟩

/-! ## Scenario engine (`src/core/scenario_manager.py`)

The manager's shared mutable state (`active_scenarios`, `scenario_states`) is
mutated only under `self.lock`, so every helper below is one atomic operation
and a concurrent execution is a sequence of such operations.  External
collaborators (car simulator, CAN manager, plugin manager, SQLite logger) are
abstracted: `sqlite_db`/`error_manager` are `None` in the modelled
configuration, step dispatch is a parameter `exec_step` returning `none` for
success or `some msg` for a raised exception, and plugin loading is a
parameter `plugin_ok`.  `datetime.now()` is a tick counter on the state;
distinct calls may share a tick, which no claim observes. -/

/-- Scenario lifecycle status strings. -/

inductive Status where
  | starting
  | running
  | stopping
  | completed
  | stopped
  | error
deriving DecidableEq, Repr

/-- One entry of `self.scenario_states` (scenario_manager.py lines 70-78):
errors are timestamped messages. -/

structure ScenarioState where
  id : String
  name : String
  start_time : Nat
  status : Status
  current_step : Nat
  total_steps : Nat
  errors : List (Nat × String)
  end_time : Option Nat := none
deriving DecidableEq, Repr

/-- The manager's lock-protected shared state: the active-thread registry,
the per-scenario state map, and the modelled wall clock. -/

structure ManagerState where
  active_scenarios : List String
  scenario_states : List (String × ScenarioState)
  clock : Nat
deriving DecidableEq, Repr

/-- `_update_scenario_status` (lines 387-399): set the status if the entry
exists; terminal statuses also record an end time. -/

def update_scenario_status (sid : String) (status : Status) (st : ManagerState) : ManagerState :=
  match dict_lookup sid st.scenario_states with
  | none => st
  | some s =>
      let s2 := { s with status := status }
      let s3 :=
        if status = Status.completed ∨ status = Status.stopped ∨ status = Status.error then
          { s2 with end_time := some st.clock }
        else s2
      { st with scenario_states := dict_set sid s3 st.scenario_states }

/-- `_update_scenario_step` (lines 401-410): record the index of the step
being executed. -/

def update_scenario_step (sid : String) (step : Nat) (st : ManagerState) : ManagerState :=
  match dict_lookup sid st.scenario_states with
  | none => st
  | some s =>
      { st with scenario_states :=
          dict_set sid { s with current_step := step } st.scenario_states }

/-- `_add_scenario_error` (lines 412-427): append a timestamped error message
(the entry always has an `errors` list in this model, as it does for every
state created by `run_scenario`). -/

def add_scenario_error (sid : String) (error : String) (st : ManagerState) : ManagerState :=
  match dict_lookup sid st.scenario_states with
  | none => st
  | some s =>
      { st with
        scenario_states :=
          dict_set sid { s with errors := s.errors ++ [(st.clock, error)] } st.scenario_states,
        clock := st.clock + 1 }

/-- `_is_scenario_active` (lines 429-443): the scenario has a state entry
whose status is `starting` or `running`, and a registered thread. -/

def is_scenario_active (sid : String) (st : ManagerState) : Bool :=
  match dict_lookup sid st.scenario_states with
  | none => false
  | some s =>
      decide (s.status = Status.starting ∨ s.status = Status.running) &&
        decide (sid ∈ st.active_scenarios)

/-- `stop_scenario` (lines 325-355): reject ids with no registered thread;
otherwise flip the status to `stopping` and report success (the SQLite event
log is absent in the modelled configuration). -/

def stop_scenario (sid : String) (st : ManagerState) : Bool × ManagerState :=
  if sid ∈ st.active_scenarios then
    (true, update_scenario_status sid Status.stopping st)
  else
    (false, st)

/-- The scenario document as the runner consumes it (`scenario_data.get`):
display name, the ordered step dicts, and the plugin preload list
(`[]` when the document has no `plugins` key). -/

structure ScenarioData where
  name : String
  steps : List PyVal
  plugins : List String := []

/-- `run_scenario` (lines 48-106): under the lock, reject an id that is
already active, reject a definition that fails to load (`load_result = none`
covers both `None` and a falsy empty document), otherwise create the state
entry and register the worker thread atomically.  SQLite logging is absent. -/

def run_scenario (load_result : Option ScenarioData) (sid : String) (st : ManagerState) :
    Bool × ManagerState :=
  if sid ∈ st.active_scenarios then
    (false, st)
  else
    match load_result with
    | none => (false, st)
    | some d =>
        let s : ScenarioState :=
          { id := sid, name := d.name, start_time := st.clock, status := Status.starting,
            current_step := 0, total_steps := d.steps.length, errors := [], end_time := none }
        (true,
          { active_scenarios := sid :: st.active_scenarios,
            scenario_states := dict_set sid s st.scenario_states,
            clock := st.clock + 1 })

/-- The step loop of `_run_scenario_thread` (lines 139-167).  `exec_step`
abstracts `_execute_step`: `none` for success, `some e` for a raised
exception.  `stop_at = some k` schedules the one external `stop_scenario`
call just before the k-th activity check the thread performs; since the
status flag is only read at the top of each iteration, this parameter ranges
over every possible interleaving of a single stop request with the loop.
Returns the state, the list of dispatched step indices, and the number of
activity checks performed. -/

def run_steps (exec_step : PyVal → Option String) (sid : String) (stop_at : Option Nat) :
    List PyVal → Nat → ManagerState → List Nat → ManagerState × List Nat × Nat
  | [], i, st, executed => (st, executed, i)
  | step :: rest, i, st, executed =>
      let st1 := if stop_at = some i then (stop_scenario sid st).2 else st
      if is_scenario_active sid st1 then
        let st2 := update_scenario_step sid i st1
        match exec_step step with
        | none => run_steps exec_step sid stop_at rest (i + 1) st2 (executed ++ [i])
        | some e =>
            (add_scenario_error sid ("Error executing step " ++ toString i ++ ": " ++ e) st2,
             executed ++ [i], i + 1)
      else
        (st1, executed, i + 1)

/-- `_run_scenario_thread` (lines 108-234) in the modelled configuration
(`sqlite_db = None`; the car simulator and plugin manager do not raise, so
the outer `except` that would set status `error` is never entered): load
plugins, flip the status to `running`, run the step loop, apply a pending
stop request that lands between the loop and the final status check, set the
final status — `completed` only if the scenario is still active and
`current_step >= len(steps)` — and finally deregister the thread.  The
`none` branch of the final lookup is unreachable because
`is_scenario_active` already requires the entry to exist.  Returns the final
state and the dispatched step indices. -/

def run_scenario_thread (plugin_ok : String → Bool) (exec_step : PyVal → Option String)
    (sid : String) (data : ScenarioData) (stop_at : Option Nat) (st : ManagerState) :
    ManagerState × List Nat :=
  let sta := data.plugins.foldl
    (fun acc p =>
      if plugin_ok p then acc
      else add_scenario_error sid ("Failed to load plugin: " ++ p) acc) st
  let stb := update_scenario_status sid Status.running sta
  let r := run_steps exec_step sid stop_at data.steps 0 stb []
  let stc := r.1
  let executed := r.2.1
  let checks := r.2.2
  let std := if stop_at = some checks then (stop_scenario sid stc).2 else stc
  let ste :=
    if is_scenario_active sid std then
      match dict_lookup sid std.scenario_states with
      | some s =>
          if s.current_step ≥ data.steps.length then
            update_scenario_status sid Status.completed std
          else
            update_scenario_status sid Status.stopped std
      | none => std
    else
      update_scenario_status sid Status.stopped std
  ({ ste with active_scenarios := ste.active_scenarios.erase sid }, executed)

/-- The status recorded for a scenario id, if any. -/

def status_of (sid : String) (st : ManagerState) : Option Status :=
  (dict_lookup sid st.scenario_states).map fun s => s.status

/-- The current step index recorded for a scenario id, if any. -/

def current_step_of (sid : String) (st : ManagerState) : Option Nat :=
  (dict_lookup sid st.scenario_states).map fun s => s.current_step

/-- The timestamped error list recorded for a scenario id, if any. -/

def errors_of (sid : String) (st : ManagerState) : Option (List (Nat × String)) :=
  (dict_lookup sid st.scenario_states).map fun s => s.errors

/-- The thread is registered and the state entry exists with status
`running`: the situation at the top of every loop iteration of an
undisturbed run. -/

def RunningReady (sid : String) (st : ManagerState) : Prop :=
  sid ∈ st.active_scenarios ∧
    ∃ s, dict_lookup sid st.scenario_states = some s ∧ s.status = Status.running

/-- The spec's example scenario: `CanMessage`, `Pause(0.1 s)`, `CanMessage`. -/

def demo_steps : List PyVal :=
  [PyVal.pydict [("type", PyVal.pystr "can_message"), ("id", PyVal.pystr "0x123"),
      ("data", PyVal.pylist [PyVal.pyint 1, PyVal.pyint 2, PyVal.pyint 3])],
   PyVal.pydict [("type", PyVal.pystr "pause"), ("duration_sec", PyVal.pyfloat (1 / 10))],
   PyVal.pydict [("type", PyVal.pystr "can_message"), ("id", PyVal.pystr "0x456"),
      ("data", PyVal.pylist [PyVal.pyint 4])]]

/-- The example scenario document, with no plugins. -/

def demo_data : ScenarioData := ⟨"Demo", demo_steps, []⟩

/-- A step executor that raises exactly on `pause` steps. -/

def fail_on_pause : PyVal → Option String
  | PyVal.pydict (("type", PyVal.pystr "pause") :: _) => some "boom"
  | _ => none

/-! ## Scenario store (`src/core/scenario_loader.py`) -/

/-- `ScenarioLoader._validate_step` (scenario_loader.py lines 261-308) on a
step that is a dict: one error and an early return when `type` is missing,
otherwise the type-specific required-field checks; unknown step types produce
no error. -/

def validate_step (step : List (String × PyVal)) (index : Nat) : List String :=
  match dict_lookup "type" step with
  | none => ["Step " ++ toString index ++ ": Missing required field \x27type\x27"]
  | some step_type =>
      if pyval_eq step_type (PyVal.pystr "can_message") then
        (if key_in "id" step then []
         else ["Step " ++ toString index ++ ": CAN message missing required field \x27id\x27"])
        ++ (match dict_lookup "data" step with
            | none =>
                ["Step " ++ toString index ++ ": CAN message missing required field \x27data\x27"]
            | some (PyVal.pylist items) =>
                if items.length > 8 then
                  ["Step " ++ toString index ++ ": CAN message \x27data\x27 cannot exceed 8 bytes"]
                else []
            | some _ =>
                ["Step " ++ toString index ++ ": CAN message \x27data\x27 must be a list of bytes"])
      else if pyval_eq step_type (PyVal.pystr "pause") then
        if key_in "duration_sec" step then []
        else ["Step " ++ toString index ++ ": Pause missing required field \x27duration_sec\x27"]
      else if pyval_eq step_type (PyVal.pystr "plugin_action") then
        (if key_in "plugin" step then []
         else ["Step " ++ toString index ++ ": Plugin action missing required field \x27plugin\x27"])
        ++ (if key_in "action" step then []
            else ["Step " ++ toString index ++ ": Plugin action missing required field \x27action\x27"])
      else []

/-- `_validate_step` on an arbitrary step value.  CPython semantics of
`"type" not in step`: dicts test key membership; strings test substring
containment (and a subsequent `step["type"]` raises `TypeError`); lists test
element membership (a subsequent `step["type"]` raises `TypeError`); numbers,
booleans and `None` raise `TypeError` at the `in` test itself.  `none` models
an exception propagating out of `validate_scenario`. -/

def validate_step_py (step : PyVal) (index : Nat) : Option (List String) :=
  match step with
  | PyVal.pydict entries => some (validate_step entries index)
  | PyVal.pystr s =>
      if str_contains_sub s "type" then none
      else some ["Step " ++ toString index ++ ": Missing required field \x27type\x27"]
  | PyVal.pylist items =>
      if items.any (fun v => pyval_eq v (PyVal.pystr "type")) then none
      else some ["Step " ++ toString index ++ ": Missing required field \x27type\x27"]
  | _ => none

/-- The `enumerate(steps)` loop of `validate_scenario` (lines 245-247). -/

def validate_steps_list : List PyVal → Nat → Option (List String)
  | [], _ => some []
  | step :: rest, i =>
      match validate_step_py step i with
      | none => none
      | some es =>
          match validate_steps_list rest (i + 1) with
          | none => none
          | some more => some (es ++ more)

/-- The required-top-level-fields loop of `validate_scenario` (lines 234-237). -/

def required_field_errors (sd : List (String × PyVal)) : List String :=
  (["id", "name", "steps"].filter fun f => ¬ key_in f sd).map
    fun f => "Missing required field: " ++ f

/-- The steps section of `validate_scenario` (lines 240-247): absent `steps`
contributes no step errors (the missing-field error is reported separately),
a non-list value is one error, a list is validated stepwise. -/

def steps_errors (sd : List (String × PyVal)) : Option (List String) :=
  match dict_lookup "steps" sd with
  | none => some []
  | some (PyVal.pylist items) => validate_steps_list items 0
  | some _ => some ["Steps must be a list"]

/-- The plugins section of `validate_scenario` (lines 250-253). -/

def plugins_errors (sd : List (String × PyVal)) : List String :=
  match dict_lookup "plugins" sd with
  | none => []
  | some (PyVal.pylist _) => []
  | some _ => ["Plugins must be a list"]

/-- `ScenarioLoader.validate_scenario` (lines 220-259): collect the three
error groups in source order and report `valid = (errors == [])`; `none`
models a `TypeError` raised by a non-dict step escaping the function. -/

def validate_scenario (sd : List (String × PyVal)) : Option (Bool × List String) :=
  match steps_errors sd with
  | none => none
  | some errs2 =>
      let errors := required_field_errors sd ++ errs2 ++ plugins_errors sd
      some (errors.isEmpty, errors)

mutual

/-- Python `str()` of a value, used for the scenario file path
`f"{scenario_id}.json"`.  Scalars follow CPython; containers are rendered
structurally with `repr`-quoted strings (floats are rendered as rationals —
the rendering of non-string ids only influences the storage path, which no
claim observes). -/
def py_str : PyVal → String
  | PyVal.pynone => "None"
  | PyVal.pybool b => if b then "True" else "False"
  | PyVal.pyint n => toString n
  | PyVal.pyfloat q => toString q
  | PyVal.pystr s => s
  | PyVal.pylist items => "[" ++ py_repr_items items ++ "]"
  | PyVal.pydict entries => "\x7b" ++ py_repr_entries entries ++ "\x7d"

/-- Comma-separated `repr` rendering of list items. -/
def py_repr_items : List PyVal → String
  | [] => ""
  | [v] => py_repr_one v
  | v :: rest => py_repr_one v ++ ", " ++ py_repr_items rest

/-- Comma-separated `repr` rendering of dict entries. -/
def py_repr_entries : List (String × PyVal) → String
  | [] => ""
  | [(k, v)] => "\x27" ++ k ++ "\x27: " ++ py_repr_one v
  | (k, v) :: rest => "\x27" ++ k ++ "\x27: " ++ py_repr_one v ++ ", " ++ py_repr_entries rest

/-- Python `repr()` of a value. -/
def py_repr_one : PyVal → String
  | PyVal.pynone => "None"
  | PyVal.pybool b => if b then "True" else "False"
  | PyVal.pyint n => toString n
  | PyVal.pyfloat q => toString q
  | PyVal.pystr s => "\x27" ++ s ++ "\x27"
  | PyVal.pylist items => "[" ++ py_repr_items items ++ "]"
  | PyVal.pydict entries => "\x7b" ++ py_repr_entries entries ++ "\x7d"

end

/-- The loader's state: the storage directory, the in-memory cache
`self.scenarios` (keyed by the document's own `id` value, compared with
Python `==`), and the scenario storage directory contents (path to stored
document). -/

structure LoaderState where
  scenario_dir : String
  scenarios : List (PyVal × PyVal)
  files : List (String × PyVal)

/-- `ScenarioLoader.save_scenario` (lines 327-371): validation failure
returns `False` before anything is touched; then `scenario_data["id"]` is
read outside the `try` (it cannot raise after successful validation, since
`id` is a required field); a failing file write is caught and returns `False`
with the cache untouched (the write is modelled as atomic: no claim observes
a partially written file); on success the file is stored and the cache is
updated under the document's own id.  SQLite registration is absent in the
modelled configuration. -/

def save_scenario (write_ok : Bool) (scenario_data : List (String × PyVal))
    (ls : LoaderState) : Option (Bool × LoaderState) :=
  match validate_scenario scenario_data with
  | none => none
  | some (valid, _errs) =>
      if valid then
        match dict_lookup "id" scenario_data with
        | none => none
        | some sidv =>
            if write_ok then
              some (true,
                { ls with
                  files := dict_set (ls.scenario_dir ++ "/" ++ py_str sidv ++ ".json")
                    (PyVal.pydict scenario_data) ls.files,
                  scenarios := dict_set_py sidv (PyVal.pydict scenario_data) ls.scenarios })
            else
              some (false, ls)
      else
        some (false, ls)

/-! ## Codec lemmas and claims -/

theorem from_to_bytes_le (n x : Nat) : from_bytes_le (to_bytes_le n x) = x % 2 ^ (8 * n) := by
  induction n generalizing x with
  | zero => simp [to_bytes_le, from_bytes_le, Nat.mod_one]
  | succ n ih =>
      have h8 : 8 * (n + 1) = 8 + 8 * n := by ring
      rw [to_bytes_le, from_bytes_le, ih, h8, pow_add]
      have h256 : (2 : Nat) ^ 8 = 256 := by norm_num
      rw [h256, Nat.mod_mul]

theorem sign_extend_core_testBit (sg : Bool) (len raw : Nat) :
    sign_extend_core sg len raw =
      if sg = true ∧ Nat.testBit raw (len - 1) = true then
        (raw : Int) - 2 ^ len
      else (raw : Int) := by
  cases sg <;> cases hb : Nat.testBit raw (len - 1) <;>
    simp [sign_extend_core, Nat.one_shiftLeft, Nat.and_two_pow, hb,
      Nat.pos_iff_ne_zero.mp (Nat.two_pow_pos (len - 1)), Nat.cast_pow]

/-- C6: for every little-endian signal, the decoder computes the raw integer
by treating the payload as one little-endian integer, shifting right by
`start_bit` and reducing modulo `2 ^ length`; a signed raw with bit
`length - 1` set is sign-extended by subtracting `2 ^ length`, and the decoded
value is `raw * factor + offset`.  Concretely, `start_bit = 0, length = 8`
over payload `[0xFF, 0x00]` extracts raw `255`, and the raw byte `0xFF`
interpreted as a signed 8-bit quantity is `-1` before scale and offset. -/

theorem little_endian_decode_reference (s : SignalDef) (data : List Nat)
    (h : s.byte_order = ByteOrder.little_endian) :
    extract_bits data s.start_bit s.length s.byte_order
        = (from_bytes_le data >>> s.start_bit) % 2 ^ s.length
    ∧ decode_signal s data =
        ((if s.is_signed = true ∧
             Nat.testBit ((from_bytes_le data >>> s.start_bit) % 2 ^ s.length) (s.length - 1) = true
          then ((from_bytes_le data >>> s.start_bit) % 2 ^ s.length : Int) - 2 ^ s.length
          else ((from_bytes_le data >>> s.start_bit) % 2 ^ s.length : Int)) : ℚ)
          * s.factor + s.offset
    ∧ extract_bits [255, 0] 0 8 ByteOrder.little_endian = 255
    ∧ sign_extend_core true 8 (extract_bits [255] 0 8 ByteOrder.little_endian) = -1 := by
  have hex : extract_bits data s.start_bit s.length s.byte_order
      = (from_bytes_le data >>> s.start_bit) % 2 ^ s.length := by
    rw [h]
    simp only [extract_bits]
    rw [Nat.one_shiftLeft, Nat.and_pow_two_sub_one_eq_mod]
  refine ⟨hex, ?_, by decide, by decide⟩
  simp only [decode_signal, decode_core]
  rw [hex, sign_extend_core_testBit]
  split_ifs with hc <;> push_cast <;> ring

/-- C6 witness: the general statement instantiated at the spec's concrete
example signal (`start_bit = 0`, `length = 8`, little-endian) and the payload
`[0xFF, 0x00]`. -/

theorem little_endian_decode_reference_witness :
    extract_bits [255, 0] 0 8 ByteOrder.little_endian
        = (from_bytes_le [255, 0] >>> 0) % 2 ^ 8 := by
  have h := little_endian_decode_reference
    (SignalDef.mk "sig" 0 8 ByteOrder.little_endian false 1 0 none none "") [255, 0] rfl
  exact h.1

/-- C3: round trip.  For every valid `SignalDef` and every raw bit pattern in
`[0, 2^length - 1]`, encoding the physical value that this raw pattern stands
for and decoding the produced bytes recovers exactly the same physical value
(rational arithmetic is exact, hence in particular within floating-point
tolerance of the factor).  The decoder is the one embedded from the source;
the encoder is the spec-modelled inverse transform `encode_signal`. -/

theorem encode_decode_round_trip (s : SignalDef) (raw : Nat)
    (hs : ValidSignal s) (hr : raw < 2 ^ s.length) :
    ∃ bytes, encode_signal s (physical_of_raw s raw) = some bytes
      ∧ decode_signal s bytes = physical_of_raw s raw := by
  obtain ⟨hlen, hwin, hf⟩ := hs
  have hrq : (physical_of_raw s raw - s.offset) / s.factor
      = ((sign_extend_core s.is_signed s.length raw : Int) : ℚ) := by
    unfold physical_of_raw
    field_simp
  have hden : ((physical_of_raw s raw - s.offset) / s.factor).den = 1 := by
    rw [hrq]; exact Rat.den_intCast _
  have hnum : ((physical_of_raw s raw - s.offset) / s.factor).num
      = sign_extend_core s.is_signed s.length raw := by
    rw [hrq]; exact Rat.num_intCast _
  have hcast : ((raw : Int)) % (2 : Int) ^ s.length = (raw : Int) := by
    refine Int.emod_eq_of_lt (Int.natCast_nonneg raw) ?_
    exact_mod_cast hr
  have hpat : ((sign_extend_core s.is_signed s.length raw) % ((2 : Int) ^ s.length)).toNat
      = raw := by
    unfold sign_extend_core
    by_cases hc : (s.is_signed && (raw &&& (1 <<< (s.length - 1)) != 0)) = true
    · rw [if_pos hc]
      have h1 : ((1 <<< s.length : Nat) : Int) = (2 : Int) ^ s.length := by
        rw [Nat.one_shiftLeft]; push_cast; ring
      have h2 : ((raw : Int) - 2 ^ s.length) % 2 ^ s.length = (raw : Int) % 2 ^ s.length := by
        have h3 : (raw : Int) - 2 ^ s.length = raw + 2 ^ s.length * (-1) := by ring
        rw [h3, Int.add_mul_emod_self_left]
      rw [h1, h2, hcast, Int.toNat_natCast]
    · rw [if_neg hc, hcast, Int.toNat_natCast]
  refine ⟨to_bytes_le 8 (raw <<< bit_pos s), ?_, ?_⟩
  · simp only [encode_signal]
    rw [hden, hnum, hpat]
    simp
  · have hlt : raw <<< bit_pos s < 2 ^ 64 := by
      rw [Nat.shiftLeft_eq]
      calc raw * 2 ^ bit_pos s < 2 ^ s.length * 2 ^ bit_pos s :=
            (Nat.mul_lt_mul_right (Nat.two_pow_pos _)).mpr hr
        _ = 2 ^ (s.length + bit_pos s) := (pow_add 2 s.length (bit_pos s)).symm
        _ ≤ 2 ^ 64 := Nat.pow_le_pow_right (by norm_num) (by omega)
    have hfrom : from_bytes_le (to_bytes_le 8 (raw <<< bit_pos s)) = raw <<< bit_pos s := by
      rw [from_to_bytes_le]
      exact Nat.mod_eq_of_lt (by norm_num; exact hlt)
    have key : ∀ pos : Nat, (raw <<< pos) >>> pos &&& (1 <<< s.length - 1) = raw := by
      intro pos
      rw [Nat.one_shiftLeft, Nat.and_pow_two_sub_one_eq_mod, Nat.shiftLeft_eq,
        Nat.shiftRight_eq_div_pow, Nat.mul_div_cancel _ (Nat.two_pow_pos pos),
        Nat.mod_eq_of_lt hr]
    have hex : extract_bits (to_bytes_le 8 (raw <<< bit_pos s))
        s.start_bit s.length s.byte_order = raw := by
      cases hbo : s.byte_order with
      | little_endian =>
          have hp : bit_pos s = s.start_bit := by unfold bit_pos; rw [hbo]
          simp only [extract_bits, hfrom]
          rw [hp]
          exact key s.start_bit
      | big_endian =>
          have hp : bit_pos s = (7 - s.start_bit % 8) + (s.start_bit / 8) * 8 := by
            unfold bit_pos; rw [hbo]
          simp only [extract_bits, hfrom]
          rw [hp]
          exact key _
    simp only [decode_signal, decode_core]
    rw [hex]
    rfl

/-- C3 witness: the round trip evaluated at a concrete signed signal
(`start_bit = 4`, `length = 8`, little-endian, factor `1/2`, offset `3`)
and the raw pattern `0x80`, whose physical value is `-61`. -/

theorem encode_decode_round_trip_witness :
    ValidSignal (SignalDef.mk "s" 4 8 ByteOrder.little_endian true (1/2) 3 none none "")
    ∧ (128 : Nat) < 2 ^ (8 : Nat)
    ∧ ∃ bytes,
        encode_signal (SignalDef.mk "s" 4 8 ByteOrder.little_endian true (1/2) 3 none none "")
          (physical_of_raw
            (SignalDef.mk "s" 4 8 ByteOrder.little_endian true (1/2) 3 none none "") 128)
          = some bytes
        ∧ decode_signal (SignalDef.mk "s" 4 8 ByteOrder.little_endian true (1/2) 3 none none "")
            bytes
          = physical_of_raw
              (SignalDef.mk "s" 4 8 ByteOrder.little_endian true (1/2) 3 none none "") 128 :=
  ⟨by unfold ValidSignal bit_pos; norm_num, by norm_num,
    encode_decode_round_trip
      (SignalDef.mk "s" 4 8 ByteOrder.little_endian true (1/2) 3 none none "") 128
      (by unfold ValidSignal bit_pos; norm_num) (by norm_num)⟩

/-- C7 counterexample: `db_ex1` is registered first and does contain a
MessageDefinition for frame id 16, yet `decode_message` returns the decode of
the *second* database, because the guard `if decoded:` treats `db_ex1`'s empty
signal mapping as a failure and falls through.  So "the first database
containing a MessageDefinition for the frame's id wins" is false as stated. -/

theorem decode_first_db_wins_cex :
    key_in 16 db_ex1.messages = true
    ∧ decode_message_custom db_ex1 16 [255] = some []
    ∧ decode_message [db_ex1, db_ex2] 16 [255] = some [("sig", 255)]
    ∧ decode_message [db_ex1, db_ex2] 16 [255] ≠ decode_message_custom db_ex1 16 [255] := by
  have hex : extract_bits [255] 0 8 ByteOrder.little_endian = 255 := by decide
  have h2 : decode_message [db_ex1, db_ex2] 16 [255] = some [("sig", 255)] := by
    simp [decode_message, decode_message_custom, db_ex1, db_ex2, dict_lookup,
      decode_signal_entry, decode_core, sign_extend_core, hex]
  refine ⟨rfl, rfl, h2, ?_⟩
  rw [h2]
  simp [decode_message_custom, db_ex1, dict_lookup]

/-- C7 (amended): for every frame id not contained in any loaded database
(including no databases at all) `decode_message` returns `none` and, being a
total function, never raises; databases are tried in registration order and
the first whose decode yields a **non-empty** signal mapping wins — a database
that contains the message but decodes it to an empty mapping is skipped. -/

theorem decode_message_order :
    (∀ (dbs : List DbcDb) (can_id : Nat) (data : List Nat),
        (∀ db ∈ dbs, dict_lookup can_id db.messages = none) →
        decode_message dbs can_id data = none)
    ∧ (∀ (pre : List DbcDb) (db : DbcDb) (post : List DbcDb) (can_id : Nat)
          (data : List Nat) (l : List (String × ℚ)),
        (∀ d ∈ pre, ∀ l2, decode_message_custom d can_id data = some l2 → l2 = []) →
        decode_message_custom db can_id data = some l → l ≠ [] →
        decode_message (pre ++ db :: post) can_id data = some l) := by
  constructor
  · intro dbs can_id data h
    induction dbs with
    | nil => rfl
    | cons d rest ih =>
        have hd : dict_lookup can_id d.messages = none := h d (List.mem_cons_self d rest)
        have hrest := ih fun db hm => h db (List.mem_cons_of_mem d hm)
        simp [decode_message, decode_message_custom, hd, hrest]
  · intro pre db post can_id data l hpre hdb hne
    induction pre with
    | nil =>
        cases l with
        | nil => exact absurd rfl hne
        | cons a ls => simp [decode_message, hdb]
    | cons d rest ih =>
        have ihr := ih fun d2 hm l2 h2 => hpre d2 (List.mem_cons_of_mem d hm) l2 h2
        cases hdec : decode_message_custom d can_id data with
        | none => simpa [decode_message, hdec] using ihr
        | some l2 =>
            have hl2 : l2 = [] := hpre d (List.mem_cons_self d rest) l2 hdec
            subst hl2
            simpa [decode_message, hdec] using ihr

/-- C7 witness: the amended ordering behaviour evaluated at the concrete
two-database setup of the counterexample, and the unknown-id case at an
empty database list. -/

theorem decode_message_order_witness :
    decode_message [db_ex1, db_ex2] 16 [255] = some [("sig", 255)]
    ∧ decode_message [] 16 [255] = none := by
  constructor
  · have hex : extract_bits [255] 0 8 ByteOrder.little_endian = 255 := by decide
    have hdb2 : decode_message_custom db_ex2 16 [255] = some [("sig", 255)] := by
      simp [decode_message_custom, db_ex2, dict_lookup, decode_signal_entry,
        decode_core, sign_extend_core, hex]
    have hpre : ∀ d ∈ [db_ex1], ∀ l2,
        decode_message_custom d 16 [255] = some l2 → l2 = [] := by
      intro d hd l2 h2
      have hd1 : d = db_ex1 := by simpa using hd
      subst hd1
      have : decode_message_custom db_ex1 16 [255] = some [] := rfl
      rw [this] at h2
      exact (Option.some.inj h2).symm
    exact decode_message_order.2 [db_ex1] db_ex2 [] 16 [255] [("sig", 255)]
      hpre hdb2 (by simp)
  · exact decode_message_order.1 [] 16 [255] (by simp)

/-- C8: once a database recognizes the frame id, a failure while decoding one
signal does not abort the rest: the result contains exactly the successfully
decoded signals, with every failing signal omitted. -/

theorem decode_partial_results (db : DbcDb) (msg : MessageDef) (can_id : Nat)
    (data : List Nat) (h : dict_lookup can_id db.messages = some msg) :
    ∃ l, decode_message_custom db can_id data = some l
      ∧ (∀ n e v, (n, e) ∈ msg.signals → decode_signal_entry e data = some v → (n, v) ∈ l)
      ∧ (∀ n v, (n, v) ∈ l →
          ∃ e, (n, e) ∈ msg.signals ∧ decode_signal_entry e data = some v) := by
  refine ⟨msg.signals.filterMap
      (fun p => (decode_signal_entry p.2 data).map fun v => (p.1, v)), ?_, ?_, ?_⟩
  · simp [decode_message_custom, h]
  · intro n e v hm hv
    exact List.mem_filterMap.mpr ⟨(n, e), hm, by simp [hv]⟩
  · intro n v hm
    obtain ⟨⟨n1, e⟩, hp, hpe⟩ := List.mem_filterMap.mp hm
    obtain ⟨v0, hv0, heq⟩ := Option.map_eq_some'.mp hpe
    injection heq with h1 h2
    subst h1
    subst h2
    exact ⟨e, hp, hv0⟩

/-- C8 witness: the partial-result property instantiated at a frame whose
message has one good signal and one malformed one. -/

theorem decode_partial_results_witness :
    dict_lookup 32 db_ex3.messages = some msg_ex
    ∧ ∃ l, decode_message_custom db_ex3 32 [255, 7] = some l
      ∧ (∀ n e v, (n, e) ∈ msg_ex.signals →
          decode_signal_entry e [255, 7] = some v → (n, v) ∈ l)
      ∧ (∀ n v, (n, v) ∈ l →
          ∃ e, (n, e) ∈ msg_ex.signals ∧ decode_signal_entry e [255, 7] = some v) :=
  ⟨rfl, decode_partial_results db_ex3 msg_ex 32 [255, 7] rfl⟩

/-! ## Scenario engine lemmas -/

theorem dict_lookup_set_self {α β : Type} [DecidableEq α] (k : α) (v : β)
    (l : List (α × β)) : dict_lookup k (dict_set k v l) = some v := by
  induction l with
  | nil => simp [dict_set, dict_lookup]
  | cons p rest ih =>
      obtain ⟨k1, v1⟩ := p
      by_cases h : k1 = k
      · simp [dict_set, dict_lookup, h]
      · simp [dict_set, dict_lookup, h, ih]

theorem dict_set_set_self {α β : Type} [DecidableEq α] (k : α) (v v2 : β)
    (l : List (α × β)) : dict_set k v (dict_set k v2 l) = dict_set k v l := by
  induction l with
  | nil => simp [dict_set]
  | cons p rest ih =>
      obtain ⟨k1, v1⟩ := p
      by_cases h : k1 = k
      · simp [dict_set, h]
      · simp [dict_set, h, ih]

theorem is_active_of_running {sid : String} {st : ManagerState}
    (h : RunningReady sid st) : is_scenario_active sid st = true := by
  obtain ⟨hmem, s, hs, hrun⟩ := h
  simp [is_scenario_active, hs, hrun, hmem]

theorem lookup_update_step {sid : String} {st : ManagerState} {s : ScenarioState}
    (hs : dict_lookup sid st.scenario_states = some s) (j : Nat) :
    dict_lookup sid (update_scenario_step sid j st).scenario_states
      = some { s with current_step := j } := by
  simp [update_scenario_step, hs, dict_lookup_set_self]

theorem update_step_active (sid : String) (j : Nat) (st : ManagerState) :
    (update_scenario_step sid j st).active_scenarios = st.active_scenarios := by
  unfold update_scenario_step
  cases dict_lookup sid st.scenario_states <;> rfl

theorem update_step_clock (sid : String) (j : Nat) (st : ManagerState) :
    (update_scenario_step sid j st).clock = st.clock := by
  unfold update_scenario_step
  cases dict_lookup sid st.scenario_states <;> rfl

theorem update_step_collapse (sid : String) (j j2 : Nat) (st : ManagerState) :
    update_scenario_step sid j (update_scenario_step sid j2 st)
      = update_scenario_step sid j st := by
  cases hs : dict_lookup sid st.scenario_states with
  | none => simp [update_scenario_step, hs]
  | some s =>
      simp [update_scenario_step, hs, dict_lookup_set_self, dict_set_set_self]

theorem running_update_step {sid : String} {st : ManagerState}
    (h : RunningReady sid st) (j : Nat) :
    RunningReady sid (update_scenario_step sid j st) := by
  obtain ⟨hmem, s, hs, hrun⟩ := h
  exact ⟨by rw [update_step_active]; exact hmem,
    { s with current_step := j }, lookup_update_step hs j, hrun⟩

theorem lookup_add_error {sid : String} {st : ManagerState} {s : ScenarioState}
    (hs : dict_lookup sid st.scenario_states = some s) (msg : String) :
    dict_lookup sid (add_scenario_error sid msg st).scenario_states
      = some { s with errors := s.errors ++ [(st.clock, msg)] } := by
  simp [add_scenario_error, hs, dict_lookup_set_self]

theorem add_error_active (sid : String) (msg : String) (st : ManagerState) :
    (add_scenario_error sid msg st).active_scenarios = st.active_scenarios := by
  unfold add_scenario_error
  cases dict_lookup sid st.scenario_states <;> rfl

theorem lookup_stop {sid : String} {st : ManagerState} {s : ScenarioState}
    (hmem : sid ∈ st.active_scenarios)
    (hs : dict_lookup sid st.scenario_states = some s) :
    (stop_scenario sid st).1 = true
    ∧ dict_lookup sid (stop_scenario sid st).2.scenario_states
        = some { s with status := Status.stopping }
    ∧ (stop_scenario sid st).2.active_scenarios = st.active_scenarios
    ∧ (stop_scenario sid st).2.clock = st.clock := by
  refine ⟨by simp [stop_scenario, hmem], ?_, ?_, ?_⟩ <;>
    simp [stop_scenario, hmem, update_scenario_status, hs, dict_lookup_set_self]

theorem is_active_after_stop {sid : String} {st : ManagerState} {s : ScenarioState}
    (hmem : sid ∈ st.active_scenarios)
    (hs : dict_lookup sid st.scenario_states = some s) :
    is_scenario_active sid (stop_scenario sid st).2 = false := by
  obtain ⟨-, hl, -, -⟩ := lookup_stop hmem hs
  simp [is_scenario_active, hl]

theorem lookup_update_status {sid : String} {st : ManagerState} {s : ScenarioState}
    (hs : dict_lookup sid st.scenario_states = some s) :
    dict_lookup sid (update_scenario_status sid Status.stopped st).scenario_states
      = some { s with status := Status.stopped, end_time := some st.clock } := by
  simp [update_scenario_status, hs, dict_lookup_set_self]

theorem run_steps_ok (exec_step : PyVal → Option String) (sid : String)
    (stop_at : Option Nat) :
    ∀ (steps : List PyVal) (i : Nat) (st : ManagerState) (ex : List Nat),
      steps ≠ [] → (∀ p ∈ steps, exec_step p = none) →
      (∀ j, i ≤ j → j < i + steps.length → stop_at ≠ some j) →
      RunningReady sid st →
      run_steps exec_step sid stop_at steps i st ex
        = (update_scenario_step sid (i + steps.length - 1) st,
           ex ++ List.range' i steps.length, i + steps.length) := by
  intro steps
  induction steps with
  | nil => intro i st ex h; exact absurd rfl h
  | cons p rest ih =>
      intro i st ex _ hok hstop hrun
      have hact : is_scenario_active sid st = true := is_active_of_running hrun
      have hp : exec_step p = none := hok p (List.mem_cons_self p rest)
      have hne : ¬ (stop_at = some i) :=
        hstop i (Nat.le_refl i) (by simp only [List.length_cons]; omega)
      have hstep : run_steps exec_step sid stop_at (p :: rest) i st ex
          = run_steps exec_step sid stop_at rest (i + 1)
              (update_scenario_step sid i st) (ex ++ [i]) := by
        simp [run_steps, hact, hp, hne]
      by_cases hrest : rest = []
      · subst hrest
        rw [hstep]
        simp [run_steps, List.range']
      · rw [hstep,
          ih (i + 1) (update_scenario_step sid i st) (ex ++ [i]) hrest
            (fun q hm => hok q (List.mem_cons_of_mem p hm))
            (fun j h1 h2 => hstop j (by omega)
              (by simp only [List.length_cons] at h2 ⊢; omega))
            (running_update_step hrun i),
          update_step_collapse]
        have h1 : i + 1 + rest.length - 1 = i + (p :: rest).length - 1 := by
          simp only [List.length_cons]; omega
        have h2 : i + 1 + rest.length = i + (p :: rest).length := by
          simp only [List.length_cons]; omega
        rw [h1, h2]
        simp [List.range', List.length_cons, List.append_assoc]

theorem run_steps_fail (exec_step : PyVal → Option String) (sid : String)
    (pstep : PyVal) (post : List PyVal) (e : String) (he : exec_step pstep = some e) :
    ∀ (pre : List PyVal) (i : Nat) (st : ManagerState) (ex : List Nat),
      (∀ p ∈ pre, exec_step p = none) → RunningReady sid st →
      run_steps exec_step sid none (pre ++ pstep :: post) i st ex
        = (add_scenario_error sid
             ("Error executing step " ++ toString (i + pre.length) ++ ": " ++ e)
             (update_scenario_step sid (i + pre.length) st),
           ex ++ List.range' i (pre.length + 1), i + pre.length + 1) := by
  intro pre
  induction pre with
  | nil =>
      intro i st ex _ hrun
      have hact : is_scenario_active sid st = true := is_active_of_running hrun
      simp [run_steps, hact, he, List.range']
  | cons q pre2 ih =>
      intro i st ex hok hrun
      have hact : is_scenario_active sid st = true := is_active_of_running hrun
      have hq : exec_step q = none := hok q (List.mem_cons_self q pre2)
      have ihr := ih (i + 1) (update_scenario_step sid i st) (ex ++ [i])
        (fun p hm => hok p (List.mem_cons_of_mem q hm)) (running_update_step hrun i)
      have hidx : i + 1 + pre2.length = i + (q :: pre2).length := by
        simp only [List.length_cons]; omega
      rw [List.cons_append]
      have hstep : run_steps exec_step sid none (q :: (pre2 ++ pstep :: post)) i st ex
          = run_steps exec_step sid none (pre2 ++ pstep :: post) (i + 1)
              (update_scenario_step sid i st) (ex ++ [i]) := by
        simp [run_steps, hact, hq]
      rw [hstep, ihr, update_step_collapse, hidx]
      simp [List.range', List.length_cons, List.append_assoc]

theorem run_steps_stop (exec_step : PyVal → Option String) (sid : String) (k : Nat) :
    ∀ (steps : List PyVal) (i : Nat) (st : ManagerState) (ex : List Nat),
      i ≤ k → k < i + steps.length → (∀ p ∈ steps, exec_step p = none) →
      RunningReady sid st →
      (run_steps exec_step sid (some k) steps i st ex).2.1 = ex ++ List.range' i (k - i)
      ∧ (run_steps exec_step sid (some k) steps i st ex).2.2 = k + 1
      ∧ status_of sid (run_steps exec_step sid (some k) steps i st ex).1
          = some Status.stopping
      ∧ errors_of sid (run_steps exec_step sid (some k) steps i st ex).1
          = errors_of sid st
      ∧ sid ∈ (run_steps exec_step sid (some k) steps i st ex).1.active_scenarios := by
  intro steps
  induction steps with
  | nil => intro i st ex hik hk; simp at hk; omega
  | cons p rest ih =>
      intro i st ex hik hk hok hrun
      obtain ⟨hmem, s, hs, hsrun⟩ := hrun
      by_cases hstop : k = i
      · subst hstop
        obtain ⟨-, hl, hact2, -⟩ := lookup_stop hmem hs
        have hinact : is_scenario_active sid (stop_scenario sid st).2 = false :=
          is_active_after_stop hmem hs
        refine ⟨?_, ?_, ?_, ?_, ?_⟩ <;>
          simp [run_steps, hinact, status_of, errors_of, hl, hs, hact2, hmem, List.range']
      · have hne : ¬ ((some k : Option Nat) = some i) := by simp; omega
        have hact : is_scenario_active sid st = true :=
          is_active_of_running ⟨hmem, s, hs, hsrun⟩
        have hp : exec_step p = none := hok p (List.mem_cons_self p rest)
        have hstep : run_steps exec_step sid (some k) (p :: rest) i st ex
            = run_steps exec_step sid (some k) rest (i + 1)
                (update_scenario_step sid i st) (ex ++ [i]) := by
          simp [run_steps, hne, hact, hp]
        obtain ⟨h1, h2, h3, h4, h5⟩ := ih (i + 1) (update_scenario_step sid i st) (ex ++ [i])
          (by omega) (by simp only [List.length_cons] at hk; omega)
          (fun q hm => hok q (List.mem_cons_of_mem p hm))
          (running_update_step ⟨hmem, s, hs, hsrun⟩ i)
        refine ⟨?_, by rw [hstep]; exact h2, by rw [hstep]; exact h3, ?_,
          by rw [hstep]; exact h5⟩
        · rw [hstep, h1]
          have hki : k - i = (k - (i + 1)) + 1 := by omega
          rw [hki]
          simp [List.range', List.append_assoc]
        · rw [hstep, h4]
          simp [errors_of, lookup_update_step hs, hs]

/-- The scenario state and registry right after `run_scenario` has accepted a
run and its thread has flipped the status to `running`. -/

theorem thread_setup (sid nm : String) (steps : List PyVal) (st0 : ManagerState)
    (h0 : sid ∉ st0.active_scenarios) :
    update_scenario_status sid Status.running
        (run_scenario (some ⟨nm, steps, []⟩) sid st0).2
      = ⟨sid :: st0.active_scenarios,
         dict_set sid ⟨sid, nm, st0.clock, Status.running, 0, steps.length, [], none⟩
           st0.scenario_states,
         st0.clock + 1⟩ := by
  simp [run_scenario, h0, update_scenario_status, dict_lookup_set_self, dict_set_set_self]

/-- C1 (the code evaluated at the claim's own example): a 3-step scenario run
with every step succeeding and no stop request ends with status `stopped` and
`current_step = 2` — not `completed` / `3` as the claim states.  The loop
records the 0-based index of the step being executed, so after the last step
`current_step = total_steps - 1` and the completion test
`current_step >= len(steps)` (scenario_manager.py line 170) cannot succeed
for a non-empty scenario; the error list is empty as claimed. -/

theorem scenario_completion_status_bug :
    (run_scenario (some demo_data) "s1" ⟨[], [], 0⟩).1 = true
    ∧ (run_scenario_thread (fun _ => true) (fun _ => none) "s1" demo_data none
        (run_scenario (some demo_data) "s1" ⟨[], [], 0⟩).2).2 = [0, 1, 2]
    ∧ status_of "s1" (run_scenario_thread (fun _ => true) (fun _ => none) "s1" demo_data none
        (run_scenario (some demo_data) "s1" ⟨[], [], 0⟩).2).1 = some Status.stopped
    ∧ current_step_of "s1" (run_scenario_thread (fun _ => true) (fun _ => none) "s1" demo_data
        none (run_scenario (some demo_data) "s1" ⟨[], [], 0⟩).2).1 = some 2
    ∧ errors_of "s1" (run_scenario_thread (fun _ => true) (fun _ => none) "s1" demo_data none
        (run_scenario (some demo_data) "s1" ⟨[], [], 0⟩).2).1 = some [] := by
  decide

/-- C4: at most one concurrent run per id.  Starting a fresh id succeeds;
a second `run_scenario` for the same id — whatever its load result — returns
`False` and leaves the manager state (thread registry and state entry of the
first run) completely untouched; and `run_scenario` also returns `False`
without touching anything when the definition cannot be loaded. -/

theorem run_scenario_at_most_one (sid : String) (st : ManagerState) (d : ScenarioData)
    (load2 : Option ScenarioData) (h : sid ∉ st.active_scenarios) :
    (run_scenario (some d) sid st).1 = true
    ∧ run_scenario load2 sid (run_scenario (some d) sid st).2
        = (false, (run_scenario (some d) sid st).2)
    ∧ (∀ st2 : ManagerState, run_scenario none sid st2 = (false, st2)) := by
  refine ⟨by simp [run_scenario, h], ?_, ?_⟩
  · set st1 := (run_scenario (some d) sid st).2 with hs1
    have hmem : sid ∈ st1.active_scenarios := by
      rw [hs1]; simp [run_scenario, h]
    simp [run_scenario, hmem]
  · intro st2
    by_cases h2 : sid ∈ st2.active_scenarios <;> simp [run_scenario, h2]

/-- C4 witness: a fresh manager, a successful first run of id `w4`, and a
rejected second call. -/

theorem run_scenario_at_most_one_witness :
    (run_scenario (some ⟨"D", [], []⟩) "w4" ⟨[], [], 0⟩).1 = true
    ∧ run_scenario (some ⟨"D", [], []⟩) "w4"
        (run_scenario (some ⟨"D", [], []⟩) "w4" ⟨[], [], 0⟩).2
      = (false, (run_scenario (some ⟨"D", [], []⟩) "w4" ⟨[], [], 0⟩).2) :=
  ⟨(run_scenario_at_most_one "w4" ⟨[], [], 0⟩ ⟨"D", [], []⟩ (some ⟨"D", [], []⟩)
      (by simp)).1,
   (run_scenario_at_most_one "w4" ⟨[], [], 0⟩ ⟨"D", [], []⟩ (some ⟨"D", [], []⟩)
      (by simp)).2.1⟩

/-- C2 counterexample: in the example scenario, step 1 (the pause) raises.
The runner appends the timestamped error and executes no further step — but
the run terminates with status `stopped`, not `error`: the claimed `error`
status is never set by the per-step handler (it is reserved for the outer
exception handler of the thread body, scenario_manager.py line 228). -/

theorem step_exception_error_status_cex :
    (run_scenario_thread (fun _ => true) fail_on_pause "s2" demo_data none
        (run_scenario (some demo_data) "s2" ⟨[], [], 0⟩).2).2 = [0, 1]
    ∧ status_of "s2" (run_scenario_thread (fun _ => true) fail_on_pause "s2" demo_data none
        (run_scenario (some demo_data) "s2" ⟨[], [], 0⟩).2).1 = some Status.stopped
    ∧ status_of "s2" (run_scenario_thread (fun _ => true) fail_on_pause "s2" demo_data none
        (run_scenario (some demo_data) "s2" ⟨[], [], 0⟩).2).1 ≠ some Status.error
    ∧ errors_of "s2" (run_scenario_thread (fun _ => true) fail_on_pause "s2" demo_data none
        (run_scenario (some demo_data) "s2" ⟨[], [], 0⟩).2).1
      = some [(1, "Error executing step 1: boom")] := by
  decide

/-- C2 (amended): when executing some step raises an exception, the runner
appends one timestamped message `"Error executing step i: e"` to the
scenario's error list, dispatches no step after the failing one (the
dispatched indices are exactly `0..i`), and the run terminates with final
status `stopped` — not `error`, which in this code is reserved for exceptions
escaping the whole thread body, outside the per-step handler. -/

theorem step_exception_stops_run
    (plugin_ok : String → Bool) (exec_step : PyVal → Option String) (sid nm : String)
    (pre post : List PyVal) (pstep : PyVal) (e : String) (st0 : ManagerState)
    (h0 : sid ∉ st0.active_scenarios)
    (hpre : ∀ p ∈ pre, exec_step p = none)
    (he : exec_step pstep = some e) :
    (run_scenario_thread plugin_ok exec_step sid ⟨nm, pre ++ pstep :: post, []⟩ none
        (run_scenario (some ⟨nm, pre ++ pstep :: post, []⟩) sid st0).2).2
      = List.range (pre.length + 1)
    ∧ status_of sid (run_scenario_thread plugin_ok exec_step sid
        ⟨nm, pre ++ pstep :: post, []⟩ none
        (run_scenario (some ⟨nm, pre ++ pstep :: post, []⟩) sid st0).2).1
      = some Status.stopped
    ∧ errors_of sid (run_scenario_thread plugin_ok exec_step sid
        ⟨nm, pre ++ pstep :: post, []⟩ none
        (run_scenario (some ⟨nm, pre ++ pstep :: post, []⟩) sid st0).2).1
      = some [(st0.clock + 1, "Error executing step " ++ toString pre.length ++ ": " ++ e)] := by
  have hsetup := thread_setup sid nm (pre ++ pstep :: post) st0 h0
  have hRR : RunningReady sid
      ⟨sid :: st0.active_scenarios,
       dict_set sid ⟨sid, nm, st0.clock, Status.running, 0, (pre ++ pstep :: post).length, [],
         none⟩ st0.scenario_states,
       st0.clock + 1⟩ :=
    ⟨List.mem_cons_self sid st0.active_scenarios, _, dict_lookup_set_self sid _ _, rfl⟩
  have hloop := run_steps_fail exec_step sid pstep post e he pre 0
    ⟨sid :: st0.active_scenarios,
     dict_set sid ⟨sid, nm, st0.clock, Status.running, 0, (pre ++ pstep :: post).length, [],
       none⟩ st0.scenario_states,
     st0.clock + 1⟩ [] hpre hRR
  have hstate : add_scenario_error sid
      ("Error executing step " ++ toString (0 + pre.length) ++ ": " ++ e)
      (update_scenario_step sid (0 + pre.length)
        ⟨sid :: st0.active_scenarios,
         dict_set sid ⟨sid, nm, st0.clock, Status.running, 0, (pre ++ pstep :: post).length, [],
           none⟩ st0.scenario_states,
         st0.clock + 1⟩)
      = ⟨sid :: st0.active_scenarios,
         dict_set sid ⟨sid, nm, st0.clock, Status.running, pre.length,
           (pre ++ pstep :: post).length,
           [(st0.clock + 1, "Error executing step " ++ toString pre.length ++ ": " ++ e)],
           none⟩ st0.scenario_states,
         st0.clock + 2⟩ := by
    simp [update_scenario_step, add_scenario_error, dict_lookup_set_self, dict_set_set_self]
  rw [hstate] at hloop
  have hlt : ¬ (pre.length ≥ (pre ++ pstep :: post).length) := by
    simp [List.length_append]
  refine ⟨?_, ?_, ?_⟩ <;>
    simp only [run_scenario_thread, List.foldl_nil, hsetup, hloop, status_of, errors_of] <;>
    simp [is_scenario_active, dict_lookup_set_self, hlt, update_scenario_status,
      dict_set_set_self, status_of, errors_of, List.range_eq_range']

/-- C2 witness: the amended behaviour at a concrete three-step run whose
middle step (a `pause` dict) raises `"boom"`. -/

theorem step_exception_stops_run_witness :
    (run_scenario_thread (fun _ => true) fail_on_pause "w2"
        ⟨"W", [PyVal.pynone] ++ PyVal.pydict [("type", PyVal.pystr "pause")] :: [PyVal.pynone],
          []⟩ none
        (run_scenario
          (some ⟨"W",
            [PyVal.pynone] ++ PyVal.pydict [("type", PyVal.pystr "pause")] :: [PyVal.pynone],
            []⟩) "w2" ⟨[], [], 0⟩).2).2
      = List.range 2
    ∧ status_of "w2" (run_scenario_thread (fun _ => true) fail_on_pause "w2"
        ⟨"W", [PyVal.pynone] ++ PyVal.pydict [("type", PyVal.pystr "pause")] :: [PyVal.pynone],
          []⟩ none
        (run_scenario
          (some ⟨"W",
            [PyVal.pynone] ++ PyVal.pydict [("type", PyVal.pystr "pause")] :: [PyVal.pynone],
            []⟩) "w2" ⟨[], [], 0⟩).2).1
      = some Status.stopped
    ∧ errors_of "w2" (run_scenario_thread (fun _ => true) fail_on_pause "w2"
        ⟨"W", [PyVal.pynone] ++ PyVal.pydict [("type", PyVal.pystr "pause")] :: [PyVal.pynone],
          []⟩ none
        (run_scenario
          (some ⟨"W",
            [PyVal.pynone] ++ PyVal.pydict [("type", PyVal.pystr "pause")] :: [PyVal.pynone],
            []⟩) "w2" ⟨[], [], 0⟩).2).1
      = some [(1, "Error executing step " ++ toString (1 : Nat) ++ ": " ++ "boom")] :=
  step_exception_stops_run (fun _ => true) fail_on_pause "w2" "W"
    [PyVal.pynone] [PyVal.pynone] (PyVal.pydict [("type", PyVal.pystr "pause")]) "boom"
    ⟨[], [], 0⟩ (by simp)
    (by intro p hp; rw [List.mem_singleton] at hp; subst hp; rfl) rfl

/-- C5: cooperative cancellation.  (a) A stop request on a scenario with a
registered thread returns `True` and flips the status to `stopping`, leaving
the current step, the error list and the thread registry untouched — the step
in progress is not interrupted.  (b) Whenever the single stop request lands so
that the run thread observes the `stopping` status at its k-th top-of-loop
check (any `k ≤ total steps`, covering a stop during any step, e.g. a pause),
the thread dispatches exactly steps `0..k-1` — none after the observation —
and the scenario's final status is `stopped` with an empty error list. -/

theorem stop_scenario_cooperative :
    (∀ (sid : String) (st : ManagerState) (s : ScenarioState),
        sid ∈ st.active_scenarios →
        dict_lookup sid st.scenario_states = some s →
        (stop_scenario sid st).1 = true
        ∧ status_of sid (stop_scenario sid st).2 = some Status.stopping
        ∧ current_step_of sid (stop_scenario sid st).2 = current_step_of sid st
        ∧ errors_of sid (stop_scenario sid st).2 = errors_of sid st
        ∧ (stop_scenario sid st).2.active_scenarios = st.active_scenarios)
    ∧ (∀ (plugin_ok : String → Bool) (exec_step : PyVal → Option String) (sid nm : String)
          (steps : List PyVal) (st0 : ManagerState) (k : Nat),
        sid ∉ st0.active_scenarios →
        (∀ p ∈ steps, exec_step p = none) → k ≤ steps.length →
        (run_scenario_thread plugin_ok exec_step sid ⟨nm, steps, []⟩ (some k)
            (run_scenario (some ⟨nm, steps, []⟩) sid st0).2).2 = List.range k
        ∧ status_of sid (run_scenario_thread plugin_ok exec_step sid ⟨nm, steps, []⟩ (some k)
            (run_scenario (some ⟨nm, steps, []⟩) sid st0).2).1 = some Status.stopped
        ∧ errors_of sid (run_scenario_thread plugin_ok exec_step sid ⟨nm, steps, []⟩ (some k)
            (run_scenario (some ⟨nm, steps, []⟩) sid st0).2).1 = some []) := by
  constructor
  · intro sid st s hmem hs
    obtain ⟨h1, hl, hact, -⟩ := lookup_stop hmem hs
    exact ⟨h1, by simp [status_of, hl], by simp [current_step_of, hl, hs],
      by simp [errors_of, hl, hs], hact⟩
  · intro plugin_ok exec_step sid nm steps st0 k h0 hok hk
    have hsetup := thread_setup sid nm steps st0 h0
    have hRR : RunningReady sid
        ⟨sid :: st0.active_scenarios,
         dict_set sid ⟨sid, nm, st0.clock, Status.running, 0, steps.length, [], none⟩
           st0.scenario_states,
         st0.clock + 1⟩ :=
      ⟨List.mem_cons_self sid st0.active_scenarios, _, dict_lookup_set_self sid _ _, rfl⟩
    by_cases hkn : k = steps.length
    · -- the stop lands after the last loop iteration, before the final check
      subst hkn
      by_cases hn : steps = []
      · subst hn
        refine ⟨rfl, ?_, ?_⟩ <;>
          simp only [run_scenario_thread, List.foldl_nil, hsetup] <;>
          simp [run_steps, stop_scenario, List.mem_cons_self, update_scenario_status,
            dict_lookup_set_self, dict_set_set_self, is_scenario_active, status_of, errors_of]
      · have hloop := run_steps_ok exec_step sid (some steps.length) steps 0
          ⟨sid :: st0.active_scenarios,
           dict_set sid ⟨sid, nm, st0.clock, Status.running, 0, steps.length, [], none⟩
             st0.scenario_states,
           st0.clock + 1⟩ [] hn hok (by intro j h1 h2; simp at h2 ⊢; omega) hRR
        have hupd : update_scenario_step sid (0 + steps.length - 1)
            ⟨sid :: st0.active_scenarios,
             dict_set sid ⟨sid, nm, st0.clock, Status.running, 0, steps.length, [], none⟩
               st0.scenario_states,
             st0.clock + 1⟩
            = ⟨sid :: st0.active_scenarios,
               dict_set sid ⟨sid, nm, st0.clock, Status.running, steps.length - 1,
                 steps.length, [], none⟩ st0.scenario_states,
               st0.clock + 1⟩ := by
          simp [update_scenario_step, dict_lookup_set_self, dict_set_set_self]
        rw [hupd] at hloop
        refine ⟨?_, ?_, ?_⟩ <;>
          simp only [run_scenario_thread, List.foldl_nil, hsetup, hloop, status_of,
            errors_of] <;>
          simp [stop_scenario, List.mem_cons_self, update_scenario_status,
            dict_lookup_set_self, dict_set_set_self, is_scenario_active, status_of,
            errors_of, List.range_eq_range']
    · -- the stop is observed at the top of loop iteration k < steps.length
      have hklt : k < steps.length := by omega
      obtain ⟨h1, h2, h3, h4, h5⟩ := run_steps_stop exec_step sid k steps 0
        ⟨sid :: st0.active_scenarios,
         dict_set sid ⟨sid, nm, st0.clock, Status.running, 0, steps.length, [], none⟩
           st0.scenario_states,
         st0.clock + 1⟩ [] (Nat.zero_le k) (by omega) hok hRR
    -- the post-loop stop guard does not fire: checks = k + 1 ≠ k
      obtain ⟨s3, hl3, hs3⟩ :
          ∃ s3, dict_lookup sid (run_steps exec_step sid (some k) steps 0
            ⟨sid :: st0.active_scenarios,
             dict_set sid ⟨sid, nm, st0.clock, Status.running, 0, steps.length, [], none⟩
               st0.scenario_states,
             st0.clock + 1⟩ []).1.scenario_states = some s3 ∧ s3.status = Status.stopping := by
        rcases hls : dict_lookup sid (run_steps exec_step sid (some k) steps 0 _ []).1.scenario_states with - | s3
        · rw [status_of, hls] at h3; simp at h3
        · rw [status_of, hls] at h3; simp at h3; exact ⟨s3, rfl, h3⟩
      have herr3 : s3.errors = [] := by
        rw [errors_of, hl3] at h4
        rw [errors_of, dict_lookup_set_self] at h4
        simpa using h4
      have hinact : is_scenario_active sid (run_steps exec_step sid (some k) steps 0
          ⟨sid :: st0.active_scenarios,
           dict_set sid ⟨sid, nm, st0.clock, Status.running, 0, steps.length, [], none⟩
             st0.scenario_states,
           st0.clock + 1⟩ []).1 = false := by
        simp [is_scenario_active, hl3, hs3]
      have hne : ¬ ((some k : Option Nat) = some ((run_steps exec_step sid (some k) steps 0
          ⟨sid :: st0.active_scenarios,
           dict_set sid ⟨sid, nm, st0.clock, Status.running, 0, steps.length, [], none⟩
             st0.scenario_states,
           st0.clock + 1⟩ []).2.2)) := by
        rw [h2]; simp
      refine ⟨?_, ?_, ?_⟩ <;>
        simp only [run_scenario_thread, List.foldl_nil, hsetup] <;>
        simp [hne, hinact, h1, h2, update_scenario_status, hl3, dict_lookup_set_self,
          status_of, errors_of, herr3, List.range_eq_range']

/-- C5 witness: part (a) at a concrete running state, part (b) at the example
scenario with the stop observed at the top of loop iteration 1 (i.e. during
step 0 or right before step 1). -/

theorem stop_scenario_cooperative_witness :
    ((stop_scenario "w5"
        ⟨["w5"], [("w5", ⟨"w5", "V", 0, Status.running, 1, 3, [], none⟩)], 5⟩).1 = true
      ∧ status_of "w5" (stop_scenario "w5"
          ⟨["w5"], [("w5", ⟨"w5", "V", 0, Status.running, 1, 3, [], none⟩)], 5⟩).2
        = some Status.stopping)
    ∧ (run_scenario_thread (fun _ => true) (fun _ => none) "w5" ⟨"V", demo_steps, []⟩ (some 1)
        (run_scenario (some ⟨"V", demo_steps, []⟩) "w5" ⟨[], [], 0⟩).2).2 = List.range 1
    ∧ status_of "w5" (run_scenario_thread (fun _ => true) (fun _ => none) "w5"
        ⟨"V", demo_steps, []⟩ (some 1)
        (run_scenario (some ⟨"V", demo_steps, []⟩) "w5" ⟨[], [], 0⟩).2).1
      = some Status.stopped
    ∧ errors_of "w5" (run_scenario_thread (fun _ => true) (fun _ => none) "w5"
        ⟨"V", demo_steps, []⟩ (some 1)
        (run_scenario (some ⟨"V", demo_steps, []⟩) "w5" ⟨[], [], 0⟩).2).1
      = some [] := by
  have ha := stop_scenario_cooperative.1 "w5"
    ⟨["w5"], [("w5", ⟨"w5", "V", 0, Status.running, 1, 3, [], none⟩)], 5⟩
    ⟨"w5", "V", 0, Status.running, 1, 3, [], none⟩ (by simp) (by simp [dict_lookup])
  have hb := stop_scenario_cooperative.2 (fun _ => true) (fun _ => none) "w5" "V"
    demo_steps ⟨[], [], 0⟩ 1 (by simp) (fun _ _ => rfl) (by simp [demo_steps])
  exact ⟨⟨ha.1, ha.2.1⟩, hb.1, hb.2.1, hb.2.2⟩

/-! ## Scenario store lemmas and claims -/

mutual

/-- Reflexivity of the modelled Python equality. -/
theorem pyval_eq_self : (v : PyVal) → pyval_eq v v = true
  | PyVal.pynone => rfl
  | PyVal.pybool b => by simp [pyval_eq]
  | PyVal.pyint n => by simp [pyval_eq]
  | PyVal.pyfloat q => by simp [pyval_eq]
  | PyVal.pystr s => by simp [pyval_eq]
  | PyVal.pylist items => by simp [pyval_eq, pyval_list_eq_self items]
  | PyVal.pydict entries => by simp [pyval_eq, pyval_entries_eq_self entries]

/-- Reflexivity, list version. -/
theorem pyval_list_eq_self : (l : List PyVal) → pyval_list_eq l l = true
  | [] => rfl
  | v :: rest => by simp [pyval_list_eq, pyval_eq_self v, pyval_list_eq_self rest]

/-- Reflexivity, dict-entries version. -/
theorem pyval_entries_eq_self : (l : List (String × PyVal)) → pyval_entries_eq l l = true
  | [] => rfl
  | (k, v) :: rest => by simp [pyval_entries_eq, pyval_eq_self v, pyval_entries_eq_self rest]

end

theorem dict_lookup_py_set_self (k v : PyVal) (l : List (PyVal × PyVal)) :
    dict_lookup_py k (dict_set_py k v l) = some v := by
  induction l with
  | nil => simp [dict_set_py, dict_lookup_py, pyval_eq_self]
  | cons p rest ih =>
      obtain ⟨k1, v1⟩ := p
      by_cases h : pyval_eq k1 k = true
      · simp [dict_set_py, dict_lookup_py, h, pyval_eq_self]
      · simp [dict_set_py, dict_lookup_py, h, ih]

theorem validate_scenario_valid_iff (sd : List (String × PyVal)) (b : Bool)
    (es : List String) (h : validate_scenario sd = some (b, es)) : b = es.isEmpty := by
  unfold validate_scenario at h
  rcases hS : steps_errors sd with - | errs2 <;> rw [hS] at h
  · cases h
  · simp only [Option.some.injEq, Prod.mk.injEq] at h
    obtain ⟨h1, h2⟩ := h
    subst h2
    exact h1.symm

theorem validate_scenario_valid_id (sd : List (String × PyVal)) (es : List String)
    (h : validate_scenario sd = some (true, es)) :
    ∃ v, dict_lookup "id" sd = some v := by
  rcases hid : dict_lookup "id" sd with - | v
  · exfalso
    have hki : key_in "id" sd = false := by simp [key_in, hid]
    have hmem : "Missing required field: id" ∈ required_field_errors sd := by
      apply List.mem_map.mpr
      exact ⟨"id", List.mem_filter.mpr ⟨by simp, by simp [hki]⟩, rfl⟩
    unfold validate_scenario at h
    rcases hS : steps_errors sd with - | errs2 <;> rw [hS] at h
    · cases h
    · simp only [Option.some.injEq, Prod.mk.injEq] at h
      obtain ⟨h1, h2⟩ := h
      have hE : required_field_errors sd ++ errs2 ++ plugins_errors sd = [] := by
        cases hEq : (required_field_errors sd ++ errs2 ++ plugins_errors sd) with
        | nil => rfl
        | cons a as => rw [hEq] at h1; simp at h1
      have hcontra : "Missing required field: id" ∈ ([] : List String) := by
        rw [← hE]
        exact List.mem_append_left _ (List.mem_append_left _ hmem)
      simp at hcontra
  · exact ⟨v, rfl⟩

/-- C9: validation.  A dict step with no `type` key yields exactly one
validation error string, and that string references the step's index; a
scenario document with no `steps` field at all validates to `valid = false`. -/

theorem validate_missing_type_and_steps :
    (∀ (step : List (String × PyVal)) (i : Nat),
        key_in "type" step = false →
        validate_step step i
          = ["Step " ++ toString i ++ ": Missing required field \x27type\x27"])
    ∧ (∀ sd : List (String × PyVal),
        key_in "steps" sd = false →
        ∃ es, validate_scenario sd = some (false, es)) := by
  constructor
  · intro step i h
    rcases ht : dict_lookup "type" step with - | v
    · unfold validate_step; rw [ht]
    · rw [key_in, ht] at h; simp at h
  · intro sd h
    have hnone : dict_lookup "steps" sd = none := by
      rcases hn : dict_lookup "steps" sd with - | v
      · rfl
      · rw [key_in, hn] at h; simp at h
    have hS : steps_errors sd = some [] := by simp [steps_errors, hnone]
    have hmem : "Missing required field: steps" ∈ required_field_errors sd := by
      apply List.mem_map.mpr
      exact ⟨"steps", List.mem_filter.mpr ⟨by simp, by simp [h]⟩, rfl⟩
    refine ⟨required_field_errors sd ++ [] ++ plugins_errors sd, ?_⟩
    have hne : (required_field_errors sd ++ [] ++ plugins_errors sd) ≠ [] := by
      intro hc
      have hmem2 := List.mem_append_left (plugins_errors sd)
        (List.mem_append_left ([] : List String) hmem)
      rw [hc] at hmem2
      simp at hmem2
    simp only [validate_scenario, hS]
    cases hEq : (required_field_errors sd ++ [] ++ plugins_errors sd) with
    | nil => exact absurd hEq hne
    | cons a as => rfl

/-- C9 witness: a step dict without `type` at index 3, and a document whose
only field is `id`. -/

theorem validate_missing_type_and_steps_witness :
    key_in "type" [("foo", PyVal.pyint 1)] = false
    ∧ validate_step [("foo", PyVal.pyint 1)] 3
        = ["Step " ++ toString (3 : Nat) ++ ": Missing required field \x27type\x27"]
    ∧ ∃ es, validate_scenario [("id", PyVal.pystr "x")] = some (false, es) :=
  ⟨by decide,
   validate_missing_type_and_steps.1 [("foo", PyVal.pyint 1)] 3 (by decide),
   validate_missing_type_and_steps.2 [("id", PyVal.pystr "x")] (by decide)⟩

/-- C10: save is gated by validation.  When validation produces a non-empty
error list, `save_scenario` returns `False` and leaves the in-memory cache
and the storage directory exactly as they were; when validation passes and
the file write succeeds it returns `True` and the cache maps the document's
own `id` value to the saved document. -/

theorem save_scenario_validation_gate :
    (∀ (write_ok : Bool) (sd : List (String × PyVal)) (ls : LoaderState) (b : Bool)
        (es : List String),
        validate_scenario sd = some (b, es) → es ≠ [] →
        save_scenario write_ok sd ls = some (false, ls))
    ∧ (∀ (sd : List (String × PyVal)) (ls : LoaderState) (es : List String),
        validate_scenario sd = some (true, es) →
        ∃ sidv ls2, dict_lookup "id" sd = some sidv
          ∧ save_scenario true sd ls = some (true, ls2)
          ∧ dict_lookup_py sidv ls2.scenarios = some (PyVal.pydict sd)) := by
  constructor
  · intro write_ok sd ls b es hval hne
    have hb := validate_scenario_valid_iff sd b es hval
    have hbf : b = false := by
      rw [hb]
      cases hEq : es with
      | nil => exact absurd hEq hne
      | cons a as => rfl
    subst hbf
    simp [save_scenario, hval]
  · intro sd ls es hval
    obtain ⟨v, hid⟩ := validate_scenario_valid_id sd es hval
    refine ⟨v,
      { ls with
        files := dict_set (ls.scenario_dir ++ "/" ++ py_str v ++ ".json")
          (PyVal.pydict sd) ls.files,
        scenarios := dict_set_py v (PyVal.pydict sd) ls.scenarios },
      hid, ?_, ?_⟩
    · simp [save_scenario, hval, hid]
    · simp [dict_lookup_py_set_self]

/-- C10 witness: an invalid document (missing `id` and `steps`) is rejected
with the loader state untouched; a valid three-field document is saved and
cached under its own id. -/

theorem save_scenario_validation_gate_witness :
    validate_scenario [("name", PyVal.pystr "S")]
      = some (false, ["Missing required field: id", "Missing required field: steps"])
    ∧ save_scenario true [("name", PyVal.pystr "S")] ⟨"cfg", [], []⟩
      = some (false, ⟨"cfg", [], []⟩)
    ∧ ∃ sidv ls2,
        dict_lookup "id"
          [("id", PyVal.pystr "sc1"), ("name", PyVal.pystr "S"), ("steps", PyVal.pylist [])]
          = some sidv
        ∧ save_scenario true
            [("id", PyVal.pystr "sc1"), ("name", PyVal.pystr "S"),
             ("steps", PyVal.pylist [])] ⟨"cfg", [], []⟩
          = some (true, ls2)
        ∧ dict_lookup_py sidv ls2.scenarios
          = some (PyVal.pydict
              [("id", PyVal.pystr "sc1"), ("name", PyVal.pystr "S"),
               ("steps", PyVal.pylist [])]) :=
  ⟨by decide,
   save_scenario_validation_gate.1 true [("name", PyVal.pystr "S")] ⟨"cfg", [], []⟩ false
     ["Missing required field: id", "Missing required field: steps"]
     (by decide) (by decide),
   save_scenario_validation_gate.2
     [("id", PyVal.pystr "sc1"), ("name", PyVal.pystr "S"), ("steps", PyVal.pylist [])]
     ⟨"cfg", [], []⟩ [] (by decide)⟩
